import Mathlib

/-!
# node-scrypt: the `params` binding

A shallow embedding of `src/node-boilerplate/scrypt_params.cc`: the argument
validation `AssignArguments`, the `TranslationInfo` constructor, the work and
after-work functions and the entry point `Params`, followed by the properties
proved about them.

What the translation unit takes from elsewhere is kept as a parameter:

* the macros `ADDONARG` and `SCRYPT` (common.h),
* the results of C++ conversions that the language leaves open (a double outside
  the range of the integer type it is cast to, an integer outside the range of
  the enumeration `node::encoding`),
* the function `pickparams` (pickparams.h), passed to `ParamsWork` as an argument.
-/

namespace ScryptParams

/-! ## Numbers -/

/-- An IEEE-754 double as far as this file inspects one: not-a-number, an
infinity, or the finite value `m * 2 ^ e`. Every finite double has this shape
(and both zeros are `finite 0 e`; no operation used here tells them apart). -/
inductive Double where
  | nan
  | inf (negative : Bool)
  | finite (m : Int) (e : Int)
  deriving DecidableEq, Repr

namespace Double

/-- The C++ comparison `d <= 0` (false for NaN). -/
def leZero : Double → Bool
  | nan => false
  | inf negative => negative
  | finite m _ => decide (m ≤ 0)

/-- The C++ comparison `d > 0` (false for NaN). -/
def gtZero : Double → Bool
  | nan => false
  | inf negative => !negative
  | finite m _ => decide (0 < m)

/-- The integer part of `m * 2 ^ e`, rounded toward zero. -/
def truncate (m e : Int) : Int :=
  if 0 ≤ e then m * 2 ^ e.toNat else Int.tdiv m (2 ^ (-e).toNat)

/-- ECMAScript ToInteger, where its result is an integer: NaN gives 0 and a finite number
its integer part; an infinity stays infinite (`none`). -/
def ToInteger : Double → Option Int
  | nan => some 0
  | inf _ => none
  | finite m e => some (truncate m e)

/-- The comparison `d <= 1`, used to state what lies in the interval (0,1]. -/
def leOne : Double → Bool
  | nan => false
  | inf negative => negative
  | finite m e => if 0 ≤ e then decide (m * 2 ^ e.toNat ≤ 1) else decide (m ≤ 2 ^ (-e).toNat)

/-- The double holding the integer `n`. -/
def ofInt (n : Int) : Double := finite n 0

/-- ECMAScript ToUint32, the value of `ToUint32()->Value()`: NaN and the
infinities give 0, a finite number its integer part modulo 2^32. -/
def ToUint32 : Double → Nat
  | finite m e => (truncate m e % 2 ^ 32).toNat
  | _ => 0

end Double

/-- What `scrypt_params.cc` takes from outside its own text. -/
structure Env where
  /-- The macro ADDONARG of common.h. -/
  ADDONARG : Int
  /-- The macro SCRYPT of common.h. -/
  SCRYPT : Int
  /-- Width of `size_t` in bits. -/
  sizeBits : Nat
  /-- Result of `static_cast<int64_t>` on a double whose integer part is not an int64. -/
  int64Outside : Double → Int
  /-- Result of `(size_t)` on a double whose integer part is not a `size_t`. -/
  sizeOutside : Double → Nat
  /-- Result of `static_cast<node::encoding>` on an integer above the enumeration range. -/
  encodingOutside : Nat → Int

namespace Env

/-- The value of `v->ToInteger()->Value()` for a number `v`: the integer ToInteger gives,
cast to int64_t by `Integer::Value()`. -/
def IntegerValue (E : Env) (d : Double) : Int :=
  match d.ToInteger with
  | some k => if -(2 ^ 63) ≤ k ∧ k < 2 ^ 63 then k else E.int64Outside d
  | none => E.int64Outside d

/-- The value of `(size_t)Local<Number>(v->ToInteger())->Value()` for a number `v`. -/
def SizeValue (E : Env) (d : Double) : Nat :=
  match d.ToInteger with
  | some k => if 0 ≤ k ∧ k < 2 ^ E.sizeBits then k.toNat else E.sizeOutside d % 2 ^ E.sizeBits
  | none => E.sizeOutside d % 2 ^ E.sizeBits

/-- The integer held after `static_cast<node::encoding>(v)`. The enumeration of node.h
has the seven enumerators ASCII .. BUFFER = 0 .. 6, so its range is 0 .. 7 and these
values are kept. -/
def encodingCast (E : Env) (v : Nat) : Int :=
  if v ≤ 7 then (v : Int) else E.encodingOutside v

end Env

/-! ## JavaScript values -/

/-- A `v8::Value` as the predicates used in this file see it. -/
inductive Value where
  | undefined
  | null
  | number (d : Double)
  | function (f : Nat)
  /-- Any other value (string, boolean, object, ...), with the number ToNumber gives. -/
  | other (toNumber : Double)
  deriving DecidableEq, Repr

namespace Value

def IsUndefined : Value → Bool
  | undefined => true
  | _ => false

def IsNull : Value → Bool
  | null => true
  | _ => false

def IsNumber : Value → Bool
  | number _ => true
  | _ => false

def IsFunction : Value → Bool
  | function _ => true
  | _ => false

/-- The value of `ToNumber()->Value()`. -/
def NumberValue : Value → Double
  | undefined => .nan
  | null => .finite 0 0
  | number d => d
  | function _ => .nan
  | other toNumber => toNumber

/-- The handle `As<Function>()` of a value, when it is a function. -/
def AsFunction : Value → Option Nat
  | function f => some f
  | _ => none

end Value

/-! ## TranslationInfo -/

/-- The struct `TranslationInfo`. `callback` is the persistent handle (`none`: empty). -/
structure TranslationInfo where
  callback : Option Nat
  result : Int
  maxmem : Nat
  maxmemfrac : Double
  maxtime : Double
  N : Int
  r : Nat
  p : Nat
  deriving DecidableEq, Repr

/-- The two properties of the `config` object that the constructor reads; the object is
built by CreateScryptConfigObject (scrypt_config_object.h) and holds numbers. -/
structure Config where
  maxmem : Double
  maxmemfrac : Double
  deriving DecidableEq, Repr

/-- The constructor `TranslationInfo(Handle<Object> config)`, run over the freshly
allocated object `raw`: it writes `maxmem`, `maxmemfrac` and empties `callback`; the
other members keep whatever the allocation held. -/
def TranslationInfo.construct (E : Env) (raw : TranslationInfo) (config : Config) :
    TranslationInfo :=
  { raw with
    maxmem := (E.encodingCast config.maxmem.ToUint32 % 2 ^ E.sizeBits).toNat
    maxmemfrac := Double.ofInt (E.encodingCast config.maxmemfrac.ToUint32)
    callback := none }

/-! ## AssignArguments -/

/-- How one pass through the body of the `for` loop ends: with a `return` (the code, the
error message and the TranslationInfo at that point), or by going on to the next index. -/
inductive Flow where
  | done (out : Int × String × TranslationInfo)
  | next (translationInfo : TranslationInfo)
  deriving DecidableEq, Repr

/-- The body of the `for` loop of `AssignArguments`, for `currentVal = args[i]`. -/
def AssignArguments.body (E : Env) (i : Nat) (currentVal : Value) (errorMessage : String)
    (translationInfo : TranslationInfo) : Flow :=
  if currentVal.IsUndefined || currentVal.IsNull then
    .next translationInfo
  else if decide (i > 0) && currentVal.IsFunction then
    .done (0, errorMessage, { translationInfo with callback := currentVal.AsFunction })
  else
    match i with
    | 0 =>
      if !currentVal.IsNumber then
        .done (E.ADDONARG, "maxtime argument must be a number", translationInfo)
      else
        let translationInfo := { translationInfo with maxtime := currentVal.NumberValue }
        if translationInfo.maxtime.leZero then
          .done (E.ADDONARG, "maxtime must be greater than 0", translationInfo)
        else
          .next translationInfo
    | 1 =>
      if !currentVal.IsUndefined then
        if !currentVal.IsNumber then
          .done (E.ADDONARG, "maxmem argument must be a number", translationInfo)
        else if E.IntegerValue currentVal.NumberValue > 0 then
          .next { translationInfo with maxmem := E.SizeValue currentVal.NumberValue }
        else
          .next translationInfo
      else
        .next translationInfo
    | 2 =>
      if !currentVal.IsUndefined then
        if !currentVal.IsNumber then
          .done (E.ADDONARG, "max_memfrac argument must be a number", translationInfo)
        else if currentVal.NumberValue.gtZero then
          .next { translationInfo with maxmemfrac := currentVal.NumberValue }
        else
          .next translationInfo
      else
        .next translationInfo
    | _ => .next translationInfo

/-- The `for` loop of `AssignArguments`, at index `i` with the arguments from `i` on, and
the `return 0` after it. -/
def AssignArguments.loop (E : Env) :
    Nat → List Value → String → TranslationInfo → Int × String × TranslationInfo
  | _, [], errorMessage, translationInfo => (0, errorMessage, translationInfo)
  | i, currentVal :: rest, errorMessage, translationInfo =>
    match AssignArguments.body E i currentVal errorMessage translationInfo with
    | .done out => out
    | .next translationInfo => AssignArguments.loop E (i + 1) rest errorMessage translationInfo

/-- The function `AssignArguments(args, errorMessage, translationInfo)`: the return code,
the error message and the TranslationInfo as the call leaves them. -/
def AssignArguments (E : Env) (args : List Value) (errorMessage : String)
    (translationInfo : TranslationInfo) : Int × String × TranslationInfo :=
  if args.length = 0 then
    (E.ADDONARG, "at least one argument is needed - the maxtime", translationInfo)
  else if decide (args.length > 0) && (args.head?.map Value.IsFunction).getD false then
    (E.ADDONARG, "at least one argument is needed before the callback - the maxtime",
      translationInfo)
  else
    AssignArguments.loop E 0 args errorMessage translationInfo

/-! ## The work function and the two after-work functions -/

/-- The object `{N, r, p}` that `createJSONObject` builds. -/
structure Record where
  N : Int
  r : Nat
  p : Nat
  deriving DecidableEq, Repr

/-- A value returned by `Internal::MakeErrorObject` (common.h), kept as the call that
built it: the overload taking a message, or the overload taking a scrypt code. -/
inductive ErrorObject where
  | fromMessage (errorCode : Int) (errorMessage : String)
  | fromScrypt (errorCode : Int) (scryptErrorCode : Int)
  deriving DecidableEq, Repr

/-- What one call of `pickparams` leaves behind: its return value and the contents of the
three out-parameters. -/
structure PickOut where
  result : Int
  N : Int
  r : Nat
  p : Nat
  deriving DecidableEq, Repr

/-- The type of `pickparams(&N, &r, &p, maxtime, maxmem, maxmemfrac)`: the out-parameters
come in with their current contents. -/
abbrev PickFn := Int → Nat → Nat → Double → Nat → Double → PickOut

/-- The function `createJSONObject(obj, N, r, p)`: `obj` becomes a new object with the
three properties. -/
def createJSONObject (_obj : Option Record) (N : Int) (r p : Nat) : Option Record :=
  some { N := N, r := r, p := p }

/-- The function `ParamsWork(translationInfo)`. -/
def ParamsWork (pickparams : PickFn) (translationInfo : TranslationInfo) : TranslationInfo :=
  let out := pickparams translationInfo.N translationInfo.r translationInfo.p
    translationInfo.maxtime translationInfo.maxmem translationInfo.maxmemfrac
  { translationInfo with result := out.result, N := out.N, r := out.r, p := out.p }

/-- The function `ParamsAsyncWork(req)`, with `req->data` as its argument. -/
def ParamsAsyncWork (pickparams : PickFn) (data : TranslationInfo) : TranslationInfo :=
  ParamsWork pickparams data

/-- The function `ParamsSyncAfterWork(obj, translationInfo)`: the error handed to
`NanThrowError`, if any, and `obj` as the call leaves it. -/
def ParamsSyncAfterWork (E : Env) (obj : Option Record) (translationInfo : TranslationInfo) :
    Option ErrorObject × Option Record :=
  if translationInfo.result ≠ 0 then
    (some (.fromScrypt E.SCRYPT translationInfo.result), obj)
  else
    (none, createJSONObject obj translationInfo.N translationInfo.r translationInfo.p)

/-- The call `NanMakeCallback(global, callback, 2, argv)`. -/
structure CallbackCall where
  callback : Option Nat
  argv0 : ErrorObject
  argv1 : Option Record
  deriving DecidableEq, Repr

/-- The function `ParamsAsyncAfterWork(req)`, with `req->data` as its argument: the
callback invocation it makes. -/
def ParamsAsyncAfterWork (E : Env) (translationInfo : TranslationInfo) : CallbackCall :=
  let obj : Option Record := none
  let obj :=
    if ¬ translationInfo.result ≠ 0 then
      createJSONObject obj translationInfo.N translationInfo.r translationInfo.p
    else obj
  { callback := translationInfo.callback
    argv0 := .fromScrypt E.SCRYPT translationInfo.result
    argv1 := obj }

/-! ## Params -/

/-- The arguments of one call of `pickparams`. -/
structure PickArgs where
  maxtime : Double
  maxmem : Nat
  maxmemfrac : Double
  deriving DecidableEq, Repr

/-- What `Params` hands back to JavaScript. -/
inductive ReturnValue where
  /-- `NanReturnValue(params)`: the record, or the empty handle. -/
  | value (params : Option Record)
  /-- `NanReturnUndefined()`. -/
  | undefined
  deriving DecidableEq, Repr

/-- Everything one call of `Params` does before it returns. -/
structure Effects where
  /-- The error handed to `NanThrowError`. -/
  thrown : Option ErrorObject
  /-- The calls of `pickparams` made inline, in order. -/
  pickparamsCalls : List PickArgs
  /-- The request handed to `uv_queue_work`, by its `data`. -/
  queued : Option TranslationInfo
  /-- The callback invocations made inline, in order. -/
  callbackCalls : List CallbackCall
  returned : ReturnValue
  deriving DecidableEq, Repr

/-- The return at the end of `Params`: `params` when the callback handle is empty,
`undefined` otherwise. -/
def Params.finish (translationInfo : TranslationInfo) (params : Option Record) : ReturnValue :=
  if translationInfo.callback.isNone then .value params else .undefined

/-- The method `Params`. `raw` is the object `new` allocates, before the constructor
runs; `parseResult` is a `uint8_t`, so it holds the return code modulo 256. -/
def Params (E : Env) (pickparams : PickFn) (raw : TranslationInfo) (config : Config)
    (args : List Value) : Effects :=
  let params : Option Record := none
  let validateMessage : String := ""
  let translationInfo := TranslationInfo.construct E raw config
  let parsed := AssignArguments E args validateMessage translationInfo
  let parseResult : Int := parsed.1 % 256
  let validateMessage := parsed.2.1
  let translationInfo := parsed.2.2
  if parseResult ≠ 0 then
    { thrown := some (.fromMessage parseResult validateMessage)
      pickparamsCalls := []
      queued := none
      callbackCalls := []
      returned := Params.finish translationInfo params }
  else if translationInfo.callback.isNone then
    let worked := ParamsWork pickparams translationInfo
    let after := ParamsSyncAfterWork E params worked
    { thrown := after.1
      pickparamsCalls :=
        [{ maxtime := translationInfo.maxtime, maxmem := translationInfo.maxmem,
           maxmemfrac := translationInfo.maxmemfrac }]
      queued := none
      callbackCalls := []
      returned := Params.finish worked after.2 }
  else
    { thrown := none
      pickparamsCalls := []
      queued := some translationInfo
      callbackCalls := []
      returned := Params.finish translationInfo params }

/-- A queued request run to completion by the event loop: `ParamsAsyncWork` on a worker,
then `ParamsAsyncAfterWork`; the `pickparams` call and the callback invocation made. -/
def runQueued (E : Env) (pickparams : PickFn) (data : TranslationInfo) :
    PickArgs × CallbackCall :=
  ({ maxtime := data.maxtime, maxmem := data.maxmem, maxmemfrac := data.maxmemfrac },
    ParamsAsyncAfterWork E (ParamsAsyncWork pickparams data))

/-- The `maxmemfrac` arguments of every `pickparams` call that a call of `Params` leads
to, inline or through the work queue. -/
def Params.forwardedMaxmemfrac (E : Env) (pickparams : PickFn) (raw : TranslationInfo)
    (config : Config) (args : List Value) : List Double :=
  let effects := Params E pickparams raw config args
  effects.pickparamsCalls.map PickArgs.maxmemfrac ++
    (effects.queued.map fun data => (runQueued E pickparams data).1.maxmemfrac).toList

/-! ## pickparams, from the specification -/

/-- The end of the parameter search of §4.2: the exponent, block size and parallelisation
it settles on, or the code of the failure. -/
inductive SearchOutcome where
  | chosen (Nexp r p : Nat)
  | failed (code : Int)
  deriving DecidableEq, Repr

/-- The conversion of an integer to the C type `int` (32 bits, two-complement). -/
def toInt32 (n : Int) : Int := (n + 2 ^ 31) % 2 ^ 32 - 2 ^ 31

/-- Modelled from the spec: `pickparams`, declared in pickparams.h, whose body is not
among the sources. §4.2 gives its output as `Result{N = 2^Nexp, r, p}` for the triple the
search settles on, and an error without any result otherwise; `search` stands for
calibration and search. On success the three values go through the out-parameters (an
`int` and two `uint32_t`) and 0 is returned; on failure the out-parameters are left as
they were. -/
def pickparams (search : Double → Nat → Double → SearchOutcome) : PickFn :=
  fun N r p maxtime maxmem maxmemfrac =>
    match search maxtime maxmem maxmemfrac with
    | .chosen Nexp r1 p1 =>
      { result := 0, N := toInt32 (2 ^ Nexp), r := r1 % 2 ^ 32, p := p1 % 2 ^ 32 }
    | .failed code => { result := code, N := N, r := r, p := p }

/-! ## The rejection condition, in words -/

/-- The arguments the validation looks at: scanning from the left and stopping at the
first function found at an index above 0. -/
def scanned : List Value → List Value
  | [] => []
  | first :: rest => first :: rest.takeWhile fun v => !v.IsFunction

/-- A scanned argument at index `i` that makes the call fail: neither undefined nor null,
and at index 0 not a number or a number `<= 0`, at index 1 or 2 not a number. -/
def offending (i : Nat) (v : Value) : Prop :=
  v ≠ .undefined ∧ v ≠ .null ∧
    ((i = 0 ∧ ((∀ d, v ≠ .number d) ∨ ∃ d, v = .number d ∧ d.leZero = true)) ∨
      ((i = 1 ∨ i = 2) ∧ ∀ d, v ≠ .number d))

/-- The argument lists that are rejected: empty, or starting with a function, or with an
offending scanned argument. -/
def rejected (args : List Value) : Prop :=
  args = [] ∨ (∃ f rest, args = .function f :: rest) ∨
    ∃ i v, (scanned args)[i]? = some v ∧ offending i v

/-! ## Sample data -/

/-- A sample environment: ADDONARG = 2, SCRYPT = 4, a 64-bit `size_t`, conversions outside
the range giving the smallest int64, 0 and the integer itself. -/
def sampleEnv : Env :=
  { ADDONARG := 2
    SCRYPT := 4
    sizeBits := 64
    int64Outside := fun _ => -(2 ^ 63)
    sizeOutside := fun _ => 0
    encodingOutside := fun v => (v : Int) }

/-- A sample allocation for `new TranslationInfo`. -/
def sampleRaw : TranslationInfo :=
  { callback := none, result := -1, maxmem := 77, maxmemfrac := .nan, maxtime := .finite (-3) 0,
    N := -5, r := 6, p := 7 }

/-- The configuration the specification documents: no `maxmem` limit, `maxmemfrac` 0.5. -/
def sampleConfig : Config :=
  { maxmem := .finite 0 0, maxmemfrac := .finite 1 (-1) }

/-- A sample `pickparams`: it succeeds and writes 16384, 8 and 1. -/
def samplePick : PickFn := fun _ _ _ _ _ _ => { result := 0, N := 16384, r := 8, p := 1 }

/-! ## Properties of AssignArguments -/

theorem loop_cons (E : Env) (i : Nat) (v : Value) (rest : List Value) (errorMessage : String)
    (ti : TranslationInfo) :
    AssignArguments.loop E i (v :: rest) errorMessage ti
      = match AssignArguments.body E i v errorMessage ti with
        | .done out => out
        | .next ti1 => AssignArguments.loop E (i + 1) rest errorMessage ti1 := by
  simp [AssignArguments.loop]

theorem AssignArguments_cons_eq_loop (E : Env) (v : Value) (rest : List Value)
    (errorMessage : String) (ti : TranslationInfo) (hv : v.IsFunction = false) :
    AssignArguments E (v :: rest) errorMessage ti
      = AssignArguments.loop E 0 (v :: rest) errorMessage ti := by
  simp [AssignArguments, hv]

/-- From index 3 on the loop body only looks for a callback. -/
theorem body_from_three (E : Env) (j : Nat) (v : Value) (errorMessage : String)
    (ti : TranslationInfo) :
    AssignArguments.body E (j + 3) v errorMessage ti
      = if v.IsFunction then .done (0, errorMessage, { ti with callback := v.AsFunction })
        else .next ti := by
  cases v <;>
    simp [AssignArguments.body, Value.IsFunction, Value.IsUndefined, Value.IsNull]

theorem loop_from_three (E : Env) (errorMessage : String) (ti : TranslationInfo) :
    ∀ (rest : List Value) (i : Nat), 3 ≤ i →
      ∃ cb, AssignArguments.loop E i rest errorMessage ti
        = (0, errorMessage, { ti with callback := cb }) := by
  intro rest
  induction rest with
  | nil => intro i _; exact ⟨ti.callback, by simp [AssignArguments.loop]⟩
  | cons v rest ih =>
    intro i hi
    obtain ⟨j, rfl⟩ : ∃ j, i = j + 3 := ⟨i - 3, by omega⟩
    rw [loop_cons, body_from_three]
    by_cases hv : v.IsFunction = true
    · exact ⟨v.AsFunction, by simp [hv]⟩
    · simpa [hv] using ih (j + 3 + 1) (by omega)

theorem exists_index_cons {α : Type} (P : Nat → α → Prop) (a : α) (l : List α) :
    (∃ j v, (a :: l)[j]? = some v ∧ P j v) ↔ P 0 a ∨ ∃ j v, l[j]? = some v ∧ P (j + 1) v := by
  constructor
  · rintro ⟨j, v, hj, hP⟩
    cases j with
    | zero =>
      simp at hj
      subst hj
      exact Or.inl hP
    | succ j => exact Or.inr ⟨j, v, by simpa using hj, hP⟩
  · rintro (h | ⟨j, v, hj, hP⟩)
    · exact ⟨0, a, by simp, h⟩
    · exact ⟨j + 1, v, by simpa using hj, hP⟩

theorem body_done_code (E : Env) (i : Nat) (v : Value) (errorMessage : String)
    (ti : TranslationInfo) (out : Int × String × TranslationInfo)
    (h : AssignArguments.body E i v errorMessage ti = .done out) :
    out.1 = 0 ∨ out.1 = E.ADDONARG := by
  rcases i with _ | _ | _ | j
  all_goals
    cases v <;>
      simp [AssignArguments.body, Value.IsFunction, Value.IsUndefined, Value.IsNull,
        Value.IsNumber, Value.NumberValue] at h <;>
      (try split_ifs at h) <;> (try simp at h) <;> (try subst h) <;> simp

theorem loop_code (E : Env) (errorMessage : String) :
    ∀ (l : List Value) (i : Nat) (ti : TranslationInfo),
      (AssignArguments.loop E i l errorMessage ti).1 = 0 ∨
      (AssignArguments.loop E i l errorMessage ti).1 = E.ADDONARG := by
  intro l
  induction l with
  | nil => intro i ti; simp [AssignArguments.loop]
  | cons v rest ih =>
    intro i ti
    rw [loop_cons]
    cases hb : AssignArguments.body E i v errorMessage ti with
    | done out => exact body_done_code E i v errorMessage ti out hb
    | next ti1 => exact ih _ _

/-! ## C1 and C3: a first argument that is no valid maxtime -/

/-- C1: when the first argument is a number `maxtime <= 0`, `AssignArguments` returns
ADDONARG with the message "maxtime must be greater than 0", whatever the remaining
arguments are (the number has been stored in `maxtime` by then). -/
theorem AssignArguments_maxtime_not_positive (E : Env) (maxtime : Double) (rest : List Value)
    (errorMessage : String) (ti : TranslationInfo) (h : maxtime.leZero = true) :
    AssignArguments E (.number maxtime :: rest) errorMessage ti
      = (E.ADDONARG, "maxtime must be greater than 0", { ti with maxtime := maxtime }) := by
  simp [AssignArguments, AssignArguments.loop, AssignArguments.body, Value.IsFunction,
    Value.IsUndefined, Value.IsNull, Value.IsNumber, Value.NumberValue, h]

theorem AssignArguments_maxtime_not_positive_witness :
    (Double.finite (-1) 0).leZero = true ∧
    AssignArguments sampleEnv
        [.number (.finite (-1) 0), .number (.finite 1 20), .number (.finite 1 (-1)), .function 5]
        "" sampleRaw
      = (sampleEnv.ADDONARG, "maxtime must be greater than 0",
          { sampleRaw with maxtime := .finite (-1) 0 }) :=
  ⟨by decide, AssignArguments_maxtime_not_positive sampleEnv (.finite (-1) 0) _ "" sampleRaw
    (by decide)⟩

/-- C3: when the first argument is present (neither undefined nor null) and is not a
number, `AssignArguments` returns ADDONARG, with the message "at least one argument is
needed before the callback - the maxtime" for a function and "maxtime argument must be a
number" otherwise, and the TranslationInfo is left as it was. -/
theorem AssignArguments_maxtime_not_a_number (E : Env) (first : Value) (rest : List Value)
    (errorMessage : String) (ti : TranslationInfo)
    (hu : first ≠ .undefined) (hn : first ≠ .null) (hnum : first.IsNumber = false) :
    AssignArguments E (first :: rest) errorMessage ti
      = (E.ADDONARG,
          if first.IsFunction then
            "at least one argument is needed before the callback - the maxtime"
          else "maxtime argument must be a number",
          ti) := by
  cases first <;>
    simp_all [AssignArguments, AssignArguments.loop, AssignArguments.body, Value.IsFunction,
      Value.IsUndefined, Value.IsNull, Value.IsNumber]

theorem AssignArguments_maxtime_not_a_number_witness :
    Value.other .nan ≠ .undefined ∧ Value.other .nan ≠ .null ∧
    (Value.other .nan).IsNumber = false ∧
    AssignArguments sampleEnv [.other .nan, .number (.finite 1 0), .function 5] "" sampleRaw
      = (sampleEnv.ADDONARG,
          if (Value.other .nan).IsFunction then
            "at least one argument is needed before the callback - the maxtime"
          else "maxtime argument must be a number",
          sampleRaw) :=
  ⟨by decide, by decide, by decide,
    AssignArguments_maxtime_not_a_number sampleEnv (.other .nan) _ "" sampleRaw
      (by decide) (by decide) (by decide)⟩

/-! ## C2 and C4: the code at the inputs where it departs from the specification -/

theorem ToUint32_half : (Double.finite 1 (-1)).ToUint32 = 0 := by decide

theorem ToUint32_zero : (Double.finite 0 0).ToUint32 = 0 := by decide

theorem body_next_maxtime (E : Env) (i : Nat) (v : Value) (errorMessage : String)
    (ti ti1 : TranslationInfo) (hi : 1 ≤ i)
    (h : AssignArguments.body E i v errorMessage ti = .next ti1) :
    ti1.maxtime = ti.maxtime := by
  rcases i with _ | _ | _ | j
  · omega
  all_goals
    cases v <;>
      simp [AssignArguments.body, Value.IsFunction, Value.IsUndefined, Value.IsNull,
        Value.IsNumber, Value.NumberValue] at h <;>
      (try split_ifs at h) <;> (try simp at h) <;> (try subst h) <;> simp

theorem body_done_maxtime (E : Env) (i : Nat) (v : Value) (errorMessage : String)
    (ti : TranslationInfo) (out : Int × String × TranslationInfo) (hi : 1 ≤ i)
    (h : AssignArguments.body E i v errorMessage ti = .done out) :
    out.2.2.maxtime = ti.maxtime := by
  rcases i with _ | _ | _ | j
  · omega
  all_goals
    cases v <;>
      simp [AssignArguments.body, Value.IsFunction, Value.IsUndefined, Value.IsNull,
        Value.IsNumber, Value.NumberValue] at h <;>
      (try split_ifs at h) <;> (try subst h) <;> simp

/-- Only index 0 writes `maxtime`. -/
theorem loop_keeps_maxtime (E : Env) (errorMessage : String) :
    ∀ (l : List Value) (i : Nat) (ti : TranslationInfo), 1 ≤ i →
      (AssignArguments.loop E i l errorMessage ti).2.2.maxtime = ti.maxtime := by
  intro l
  induction l with
  | nil => intro i ti _; simp [AssignArguments.loop]
  | cons v rest ih =>
    intro i ti hi
    rw [loop_cons]
    cases hb : AssignArguments.body E i v errorMessage ti with
    | done out => exact body_done_maxtime E i v errorMessage ti out hi hb
    | next ti1 =>
      exact (ih (i + 1) ti1 (by omega)).trans
        (body_next_maxtime E i v errorMessage ti ti1 hi hb)

/-- C2, the code at the failing input: the empty argument list is rejected with ADDONARG,
but a first argument that is undefined or null is skipped by the loop, so that
`AssignArguments` returns 0 for the call `params(undefined)` or `params(null)`, never
assigns `maxtime` whatever follows such a first argument, and `Params` goes on to call
`pickparams` with the `maxtime` that the allocation happened to hold. -/
theorem AssignArguments_accepts_missing_maxtime (E : Env) (pick : PickFn)
    (raw : TranslationInfo) (config : Config) (errorMessage : String) (ti : TranslationInfo) :
    AssignArguments E [] errorMessage ti
      = (E.ADDONARG, "at least one argument is needed - the maxtime", ti) ∧
    AssignArguments E [.undefined] errorMessage ti = (0, errorMessage, ti) ∧
    AssignArguments E [.null] errorMessage ti = (0, errorMessage, ti) ∧
    (∀ rest : List Value,
      (AssignArguments E (.undefined :: rest) errorMessage ti).2.2.maxtime = ti.maxtime ∧
      (AssignArguments E (.null :: rest) errorMessage ti).2.2.maxtime = ti.maxtime) ∧
    (Params E pick raw config [.undefined]).thrown
      = (ParamsSyncAfterWork E none
          (ParamsWork pick (TranslationInfo.construct E raw config))).1 ∧
    (Params E pick raw config [.undefined]).pickparamsCalls.map PickArgs.maxtime
      = [raw.maxtime] := by
  refine ⟨?_, ?_, ?_, ?_, ?_, ?_⟩
  · simp [AssignArguments]
  · simp [AssignArguments, AssignArguments.loop, AssignArguments.body, Value.IsFunction,
      Value.IsUndefined]
  · simp [AssignArguments, AssignArguments.loop, AssignArguments.body, Value.IsFunction,
      Value.IsUndefined, Value.IsNull]
  · intro rest
    constructor
    · rw [AssignArguments_cons_eq_loop E .undefined rest errorMessage ti rfl, loop_cons]
      simpa [AssignArguments.body, Value.IsUndefined] using
        loop_keeps_maxtime E errorMessage rest 1 ti (le_refl 1)
    · rw [AssignArguments_cons_eq_loop E .null rest errorMessage ti rfl, loop_cons]
      simpa [AssignArguments.body, Value.IsUndefined, Value.IsNull] using
        loop_keeps_maxtime E errorMessage rest 1 ti (le_refl 1)
  · simp [AssignArguments, AssignArguments.loop, AssignArguments.body, Value.IsFunction,
      Value.IsUndefined, Params, TranslationInfo.construct]
  · simp [AssignArguments, AssignArguments.loop, AssignArguments.body, Value.IsFunction,
      Value.IsUndefined, Params, TranslationInfo.construct]

/-- C4, the code at the failing input: with the configured default fraction 0.5 and a call
that leaves `maxmemfrac` unspecified, the constructor has put the fraction through
ToUint32, which gives 0, `AssignArguments` leaves that in place, and `pickparams` is
called with `maxmemfrac` 0 instead of 0.5. -/
theorem construct_truncates_default_maxmemfrac (E : Env) (pick : PickFn)
    (raw : TranslationInfo) :
    sampleConfig.maxmemfrac = .finite 1 (-1) ∧
    (TranslationInfo.construct E raw sampleConfig).maxmemfrac = .finite 0 0 ∧
    (AssignArguments E [.number (.finite 1 0)] ""
      (TranslationInfo.construct E raw sampleConfig)).2.2.maxmemfrac = .finite 0 0 ∧
    (Params E pick raw sampleConfig [.number (.finite 1 0)]).pickparamsCalls
      = [{ maxtime := .finite 1 0, maxmem := 0, maxmemfrac := .finite 0 0 }] := by
  simp [AssignArguments, AssignArguments.loop, AssignArguments.body, Value.IsFunction,
    Value.IsUndefined, Value.IsNull, Value.IsNumber, Value.NumberValue, Params,
    TranslationInfo.construct, sampleConfig, ToUint32_half, ToUint32_zero, Env.encodingCast,
    Double.ofInt, Double.leZero]

/-! ## C5: numbers given for maxmem and maxmemfrac -/

theorem IntegerValue_of_fits (E : Env) (d : Double) (k : Int) (hk : d.ToInteger = some k)
    (h64 : -(2 ^ 63) ≤ k ∧ k < 2 ^ 63) : E.IntegerValue d = k := by
  unfold Env.IntegerValue
  rw [hk]
  exact if_pos h64

/-- The pass of the loop body at index 1 over a number. -/
theorem body_maxmem_number (E : Env) (maxmem : Double) (errorMessage : String)
    (ti : TranslationInfo) :
    AssignArguments.body E 1 (.number maxmem) errorMessage ti
      = .next { ti with
          maxmem := if E.IntegerValue maxmem > 0 then E.SizeValue maxmem else ti.maxmem } := by
  by_cases hpos : E.IntegerValue maxmem > 0 <;>
    simp [AssignArguments.body, Value.IsFunction, Value.IsUndefined, Value.IsNull,
      Value.IsNumber, Value.NumberValue, hpos]

/-- What index 1 stores for a number, on a platform whose conversion of an out-of-range
double to `int64_t` gives nothing positive: the integer part `k` when `0 < k < 2^63` (as
far as it fits `size_t`), the old value otherwise. -/
theorem stored_maxmem_eq (E : Env) (hconv : ∀ d, E.int64Outside d ≤ 0) (maxmem : Double)
    (old : Nat) :
    (if E.IntegerValue maxmem > 0 then E.SizeValue maxmem else old)
      = match maxmem.ToInteger with
        | some k =>
          if 0 < k ∧ k < 2 ^ 63 then
            if k < 2 ^ E.sizeBits then k.toNat else E.sizeOutside maxmem % 2 ^ E.sizeBits
          else old
        | none => old := by
  have hout : ¬ E.int64Outside maxmem > 0 := not_lt.mpr (hconv maxmem)
  cases hk : maxmem.ToInteger with
  | none =>
    have hval : E.IntegerValue maxmem = E.int64Outside maxmem := by
      unfold Env.IntegerValue
      rw [hk]
    rw [hval, if_neg hout]
  | some k =>
    by_cases h64 : -(2 ^ 63) ≤ k ∧ k < 2 ^ 63
    · rw [IntegerValue_of_fits E maxmem k hk h64]
      by_cases hpos : 0 < k
      · have hsz : E.SizeValue maxmem
            = if k < 2 ^ E.sizeBits then k.toNat else E.sizeOutside maxmem % 2 ^ E.sizeBits := by
          unfold Env.SizeValue
          rw [hk]
          simp only [le_of_lt hpos, true_and]
        simp only [gt_iff_lt, hpos, h64.2, and_self, if_true, hsz]
      · simp only [gt_iff_lt, hpos, false_and, if_false]
    · have hval : E.IntegerValue maxmem = E.int64Outside maxmem := by
        unfold Env.IntegerValue
        rw [hk]
        exact if_neg h64
      have hno : ¬ (0 < k ∧ k < 2 ^ 63) := by
        intro h
        exact h64 ⟨le_trans (by norm_num) (le_of_lt h.1), h.2⟩
      rw [hval, if_neg hout]
      simp only [hno, if_false]

/-- From index 3 on the loop ends at the first function, which becomes the callback. -/
theorem loop_from_three_eq (E : Env) (errorMessage : String) (ti : TranslationInfo) :
    ∀ (rest : List Value) (i : Nat), 3 ≤ i →
      AssignArguments.loop E i rest errorMessage ti
        = (0, errorMessage,
            { ti with
              callback :=
                match rest.find? Value.IsFunction with
                | some v => v.AsFunction
                | none => ti.callback }) := by
  intro rest
  induction rest with
  | nil => intro i _; simp [AssignArguments.loop]
  | cons v rest ih =>
    intro i hi
    obtain ⟨j, rfl⟩ : ∃ j, i = j + 3 := ⟨i - 3, by omega⟩
    rw [loop_cons, body_from_three]
    by_cases hv : v.IsFunction = true
    · simp [hv, List.find?]
    · have hv1 : v.IsFunction = false := by simpa using hv
      simpa [hv1, List.find?] using ih (j + 3 + 1) (by omega)

/-- The pass of the loop body at index 2 over a number. -/
theorem body_maxmemfrac_number (E : Env) (maxmemfrac : Double) (errorMessage : String)
    (ti : TranslationInfo) :
    AssignArguments.body E 2 (.number maxmemfrac) errorMessage ti
      = .next { ti with
          maxmemfrac := if maxmemfrac.gtZero then maxmemfrac else ti.maxmemfrac } := by
  by_cases hpos : maxmemfrac.gtZero = true <;>
    simp [AssignArguments.body, Value.IsFunction, Value.IsUndefined, Value.IsNull,
      Value.IsNumber, Value.NumberValue, hpos]

/-- The pass of the loop body at index 0 over a number that is not `<= 0`. -/
theorem body_maxtime_number (E : Env) (maxtime : Double) (errorMessage : String)
    (ti : TranslationInfo) (ht : maxtime.leZero = false) :
    AssignArguments.body E 0 (.number maxtime) errorMessage ti
      = .next { ti with maxtime := maxtime } := by
  simp [AssignArguments.body, Value.IsFunction, Value.IsUndefined, Value.IsNull,
    Value.IsNumber, Value.NumberValue, ht]

/-- C5 as stated fails: with the x86-64 conversions of the sample environment, the call
`params(1, 2^63, 0.5)` is accepted and the integer part of `maxmem`, 2^63, is positive, yet
the default `maxmem` stays in place, because 2^63 is no `int64_t`; the same happens for
`maxmem = +Infinity`. -/
theorem maxmem_beyond_int64_keeps_default :
    (Double.finite 1 63).ToInteger = some (2 ^ 63) ∧ (0 : Int) < 2 ^ 63 ∧
    AssignArguments sampleEnv
        [.number (.finite 1 0), .number (.finite 1 63), .number (.finite 1 (-1))] "" sampleRaw
      = (0, "", { sampleRaw with maxtime := .finite 1 0, maxmemfrac := .finite 1 (-1) }) ∧
    (Double.inf false).gtZero = true ∧
    AssignArguments sampleEnv
        [.number (.finite 1 0), .number (.inf false), .number (.finite 1 (-1))] "" sampleRaw
      = (0, "", { sampleRaw with maxtime := .finite 1 0, maxmemfrac := .finite 1 (-1) }) := by
  decide

/-- C5, amended: with a valid `maxtime` (not `<= 0`) and numbers for `maxmem` and
`maxmemfrac`, `AssignArguments` returns 0 and leaves the error message alone, whatever
follows (the first function among what follows becomes the callback), and the same when
`maxmem` is the last argument. The `maxmemfrac` number replaces the default exactly when
it is `> 0`. The `maxmem` number replaces the default exactly when its integer part `k`
is positive and an `int64_t`, `0 < k < 2^63`, and `k` is then what is stored (as far as it
fits `size_t`); every other number (zero, negative, NaN, an integer part of 2^63 or more,
an infinity) leaves the default in place and is no error. This is for a platform whose
conversion of an out-of-range double to `int64_t` gives nothing positive, as x86-64 does. -/
theorem AssignArguments_optional_numbers (E : Env) (maxtime maxmem maxmemfrac : Double)
    (rest : List Value) (errorMessage : String) (ti : TranslationInfo)
    (hconv : ∀ d, E.int64Outside d ≤ 0) (ht : maxtime.leZero = false) :
    AssignArguments E (.number maxtime :: .number maxmem :: .number maxmemfrac :: rest)
        errorMessage ti
      = (0, errorMessage,
          { ti with
            maxtime := maxtime
            maxmem :=
              match maxmem.ToInteger with
              | some k =>
                if 0 < k ∧ k < 2 ^ 63 then
                  if k < 2 ^ E.sizeBits then k.toNat else E.sizeOutside maxmem % 2 ^ E.sizeBits
                else ti.maxmem
              | none => ti.maxmem
            maxmemfrac := if maxmemfrac.gtZero then maxmemfrac else ti.maxmemfrac
            callback :=
              match rest.find? Value.IsFunction with
              | some v => v.AsFunction
              | none => ti.callback }) ∧
    AssignArguments E [.number maxtime, .number maxmem] errorMessage ti
      = (0, errorMessage,
          { ti with
            maxtime := maxtime
            maxmem :=
              match maxmem.ToInteger with
              | some k =>
                if 0 < k ∧ k < 2 ^ 63 then
                  if k < 2 ^ E.sizeBits then k.toNat else E.sizeOutside maxmem % 2 ^ E.sizeBits
                else ti.maxmem
              | none => ti.maxmem }) := by
  have hstored := stored_maxmem_eq E hconv maxmem ti.maxmem
  constructor
  · rw [AssignArguments_cons_eq_loop E (.number maxtime) _ _ _ rfl, loop_cons,
      body_maxtime_number E maxtime errorMessage ti ht]
    simp only []
    rw [loop_cons, body_maxmem_number]
    simp only []
    rw [loop_cons, body_maxmemfrac_number]
    simp only []
    rw [loop_from_three_eq E errorMessage _ rest 3 (le_refl 3), hstored]
  · rw [AssignArguments_cons_eq_loop E (.number maxtime) _ _ _ rfl, loop_cons,
      body_maxtime_number E maxtime errorMessage ti ht]
    simp only []
    rw [loop_cons, body_maxmem_number]
    simp only []
    rw [hstored]
    simp [AssignArguments.loop]

theorem AssignArguments_optional_numbers_witness :
    (∀ d, sampleEnv.int64Outside d ≤ 0) ∧ (Double.finite 1 0).leZero = false ∧
    AssignArguments sampleEnv
        [.number (.finite 1 0), .number (.finite 12345 (-3)), .number (.finite (-1) 0),
          .function 5]
        "" sampleRaw
      = (0, "", { sampleRaw with maxtime := .finite 1 0, maxmem := 1543, callback := some 5 }) ∧
    AssignArguments sampleEnv [.number (.finite 1 0), .number (.finite 12345 (-3))] "" sampleRaw
      = (0, "", { sampleRaw with maxtime := .finite 1 0, maxmem := 1543 }) :=
  ⟨fun _ => by simp [sampleEnv], by decide,
    (AssignArguments_optional_numbers sampleEnv (.finite 1 0) (.finite 12345 (-3))
      (.finite (-1) 0) [.function 5] "" sampleRaw (fun _ => by simp [sampleEnv]) (by decide)).1.trans
      (by decide),
    (AssignArguments_optional_numbers sampleEnv (.finite 1 0) (.finite 12345 (-3))
      (.finite (-1) 0) [.function 5] "" sampleRaw (fun _ => by simp [sampleEnv]) (by decide)).2.trans
      (by decide)⟩

/-! ## C10: which argument lists are rejected -/

/-- A function met by the loop ends it, and what it returns does not depend on what follows. -/
theorem body_function (E : Env) (i f : Nat) (errorMessage : String) (ti : TranslationInfo) :
    ∃ out, AssignArguments.body E i (.function f) errorMessage ti = .done out := by
  rcases i with _ | i <;>
    simp [AssignArguments.body, Value.IsFunction, Value.IsUndefined, Value.IsNull,
      Value.IsNumber]

theorem loop_ignores_after_function (E : Env) (f : Nat) (suf suf1 : List Value)
    (errorMessage : String) :
    ∀ (pre : List Value) (i : Nat) (ti : TranslationInfo),
      AssignArguments.loop E i (pre ++ .function f :: suf) errorMessage ti
        = AssignArguments.loop E i (pre ++ .function f :: suf1) errorMessage ti := by
  intro pre
  induction pre with
  | nil =>
    intro i ti
    obtain ⟨out, hout⟩ := body_function E i f errorMessage ti
    simp [loop_cons, hout]
  | cons a pre ih =>
    intro i ti
    simp only [List.cons_append, loop_cons]
    cases AssignArguments.body E i a errorMessage ti with
    | done out => rfl
    | next ti1 => exact ih _ _

theorem loop_ignores_from_three (E : Env) (v w : Value) (suf : List Value)
    (errorMessage : String) (hv : v.IsFunction = false) (hw : w.IsFunction = false) :
    ∀ (pre : List Value) (i : Nat) (ti : TranslationInfo), 3 ≤ i + pre.length →
      AssignArguments.loop E i (pre ++ v :: suf) errorMessage ti
        = AssignArguments.loop E i (pre ++ w :: suf) errorMessage ti := by
  intro pre
  induction pre with
  | nil =>
    intro i ti hi
    obtain ⟨j, rfl⟩ : ∃ j, i = j + 3 := ⟨i - 3, by simp at hi; omega⟩
    simp [loop_cons, body_from_three, hv, hw]
  | cons a pre ih =>
    intro i ti hi
    simp only [List.cons_append, loop_cons]
    cases AssignArguments.body E i a errorMessage ti with
    | done out => rfl
    | next ti1 => exact ih _ _ (by simp at hi; omega)

theorem scan_cons (a : Value) (rest : List Value) (i : Nat) (ha : a.IsFunction = false) :
    (∃ j v, ((a :: rest).takeWhile fun v => !v.IsFunction)[j]? = some v ∧ offending (i + j) v) ↔
      offending i a ∨
        ∃ j v, (rest.takeWhile fun v => !v.IsFunction)[j]? = some v ∧
          offending (i + 1 + j) v := by
  have htw : ((a :: rest).takeWhile fun v => !v.IsFunction)
      = a :: rest.takeWhile fun v => !v.IsFunction := by
    simp [List.takeWhile_cons, ha]
  rw [htw, exists_index_cons (fun j v => offending (i + j) v)]
  simp only [Nat.add_zero, Nat.add_assoc, Nat.add_comm 1]

theorem scan_function (f : Nat) (rest : List Value) (i : Nat) :
    ¬ ∃ j v, ((Value.function f :: rest).takeWhile fun v => !v.IsFunction)[j]? = some v ∧
      offending (i + j) v := by
  simp [List.takeWhile_cons, Value.IsFunction]

theorem body_number_next (E : Env) (i : Nat) (d : Double) (errorMessage : String)
    (ti : TranslationInfo) (hi : 1 ≤ i) :
    ∃ ti1, AssignArguments.body E i (.number d) errorMessage ti = .next ti1 := by
  rcases i with _ | _ | _ | j
  · omega
  all_goals
    simp only [AssignArguments.body, Value.IsFunction, Value.IsUndefined, Value.IsNull,
      Value.IsNumber, Value.NumberValue]
    simp only [Bool.or_self, Bool.false_eq_true, if_false, Bool.and_false, Bool.not_false,
      if_true, Bool.not_true]
    try split_ifs
    all_goals exact ⟨_, rfl⟩

/-- The loop from an index above 0: it returns a non-zero code exactly when one of the
arguments before the first function is offending at its index. -/
theorem loop_rejects_iff (E : Env) (hA : E.ADDONARG ≠ 0) (errorMessage : String) :
    ∀ (l : List Value) (i : Nat) (ti : TranslationInfo), 1 ≤ i →
      ((AssignArguments.loop E i l errorMessage ti).1 ≠ 0 ↔
        ∃ j v, (l.takeWhile fun v => !v.IsFunction)[j]? = some v ∧ offending (i + j) v) := by
  intro l
  induction l with
  | nil => intro i ti _; simp [AssignArguments.loop]
  | cons a rest ih =>
    intro i ti hi
    rw [loop_cons]
    cases a with
    | function f =>
      obtain ⟨k, rfl⟩ : ∃ k, i = k + 1 := ⟨i - 1, by omega⟩
      have hno := scan_function f rest (k + 1)
      simp [AssignArguments.body, Value.IsFunction, Value.IsUndefined, Value.IsNull, hno]
    | undefined =>
      rw [scan_cons .undefined rest i rfl, ← ih (i + 1) ti (by omega)]
      simp [AssignArguments.body, Value.IsUndefined, offending]
    | null =>
      rw [scan_cons .null rest i rfl, ← ih (i + 1) ti (by omega)]
      simp [AssignArguments.body, Value.IsUndefined, Value.IsNull, offending]
    | number d =>
      obtain ⟨ti1, h1⟩ := body_number_next E i d errorMessage ti hi
      rw [scan_cons (.number d) rest i rfl, ← ih (i + 1) ti1 (by omega), h1]
      have : i ≠ 0 := by omega
      simp [offending, this]
    | other x =>
      rw [scan_cons (.other x) rest i rfl]
      rcases i with _ | _ | _ | j
      · omega
      · simp [AssignArguments.body, Value.IsFunction, Value.IsUndefined, Value.IsNull,
          Value.IsNumber, offending, hA]
      · simp [AssignArguments.body, Value.IsFunction, Value.IsUndefined, Value.IsNull,
          Value.IsNumber, offending, hA]
      · rw [← ih (j + 1 + 1 + 1 + 1) ti (by omega)]
        simp [AssignArguments.body, Value.IsFunction, Value.IsUndefined, Value.IsNull,
          Value.IsNumber, offending]

theorem rejected_cons (a : Value) (rest : List Value) (ha : a.IsFunction = false) :
    rejected (a :: rest) ↔
      offending 0 a ∨
        ∃ j v, (rest.takeWhile fun v => !v.IsFunction)[j]? = some v ∧ offending (1 + j) v := by
  unfold rejected scanned
  rw [exists_index_cons offending]
  have hnf : ¬ ∃ f rest1, a :: rest = Value.function f :: rest1 := by
    rintro ⟨f, rest1, h⟩
    simp only [List.cons.injEq] at h
    rw [h.1] at ha
    simp [Value.IsFunction] at ha
  simp only [hnf, false_or, Nat.add_comm 1, List.cons_ne_nil]

/-- C10: provided ADDONARG is not 0, `AssignArguments` returns a non-zero code exactly for
the rejected argument lists: the empty one, those that start with a function, and those in
which, among the arguments scanned from the left up to the first function at an index
above 0, one that is neither undefined nor null is not a number (index 0, 1 or 2) or is a
number `<= 0` (index 0). The code is always 0 or ADDONARG. What follows a function never
changes the outcome, and neither does exchanging one non-function argument for another at
index 3 or beyond. -/
theorem AssignArguments_rejects_iff (E : Env) (hA : E.ADDONARG ≠ 0) (args : List Value)
    (errorMessage : String) (ti : TranslationInfo) :
    ((AssignArguments E args errorMessage ti).1 ≠ 0 ↔ rejected args) ∧
    ((AssignArguments E args errorMessage ti).1 = 0 ∨
      (AssignArguments E args errorMessage ti).1 = E.ADDONARG) ∧
    (∀ (pre : List Value) (f : Nat) (suf suf1 : List Value),
      AssignArguments E (pre ++ .function f :: suf) errorMessage ti
        = AssignArguments E (pre ++ .function f :: suf1) errorMessage ti) ∧
    (∀ (pre : List Value) (v w : Value) (suf : List Value), 3 ≤ pre.length →
      v.IsFunction = false → w.IsFunction = false →
      AssignArguments E (pre ++ v :: suf) errorMessage ti
        = AssignArguments E (pre ++ w :: suf) errorMessage ti) := by
  refine ⟨?_, ?_, ?_, ?_⟩
  · cases args with
    | nil => simp [AssignArguments, rejected, hA]
    | cons a rest =>
      cases a with
      | function f => simp [AssignArguments, rejected, Value.IsFunction, hA]
      | undefined =>
        rw [rejected_cons .undefined rest rfl, AssignArguments_cons_eq_loop E .undefined _ _ _ rfl,
          loop_cons, ← loop_rejects_iff E hA errorMessage rest 1 ti (le_refl 1)]
        simp [AssignArguments.body, Value.IsUndefined, offending]
      | null =>
        rw [rejected_cons .null rest rfl, AssignArguments_cons_eq_loop E .null _ _ _ rfl,
          loop_cons, ← loop_rejects_iff E hA errorMessage rest 1 ti (le_refl 1)]
        simp [AssignArguments.body, Value.IsUndefined, Value.IsNull, offending]
      | number d =>
        rw [rejected_cons (.number d) rest rfl, AssignArguments_cons_eq_loop E (.number d) _ _ _ rfl,
          loop_cons]
        by_cases hd : d.leZero = true
        · simp [AssignArguments.body, Value.IsFunction, Value.IsUndefined, Value.IsNull,
            Value.IsNumber, Value.NumberValue, offending, hd, hA]
        · rw [← loop_rejects_iff E hA errorMessage rest 1 { ti with maxtime := d }
            (le_refl 1)]
          simp [AssignArguments.body, Value.IsFunction, Value.IsUndefined, Value.IsNull,
            Value.IsNumber, Value.NumberValue, offending, hd]
      | other x =>
        rw [rejected_cons (.other x) rest rfl, AssignArguments_cons_eq_loop E (.other x) _ _ _ rfl,
          loop_cons]
        simp [AssignArguments.body, Value.IsFunction, Value.IsUndefined, Value.IsNull,
          Value.IsNumber, offending, hA]
  · unfold AssignArguments
    split_ifs
    · exact Or.inr rfl
    · exact Or.inr rfl
    · exact loop_code E errorMessage args 0 ti
  · intro pre f suf suf1
    cases pre with
    | nil => simp [AssignArguments, Value.IsFunction]
    | cons a pre =>
      by_cases ha : a.IsFunction = true
      · simp [AssignArguments, ha]
      · have ha1 : a.IsFunction = false := by simpa using ha
        rw [List.cons_append, List.cons_append, AssignArguments_cons_eq_loop E a _ _ _ ha1,
          AssignArguments_cons_eq_loop E a _ _ _ ha1]
        exact loop_ignores_after_function E f suf suf1 errorMessage (a :: pre) 0 ti
  · intro pre v w suf hlen hv hw
    cases pre with
    | nil => simp at hlen
    | cons a pre =>
      by_cases ha : a.IsFunction = true
      · simp [AssignArguments, ha]
      · have ha1 : a.IsFunction = false := by simpa using ha
        rw [List.cons_append, List.cons_append, AssignArguments_cons_eq_loop E a _ _ _ ha1,
          AssignArguments_cons_eq_loop E a _ _ _ ha1]
        exact loop_ignores_from_three E v w suf errorMessage hv hw (a :: pre) 0 ti
          (by simpa using hlen)

theorem AssignArguments_rejects_iff_witness :
    sampleEnv.ADDONARG ≠ 0 ∧
    ((AssignArguments sampleEnv [.number (.finite 1 0), .undefined, .other .nan, .function 5]
        "" sampleRaw).1 ≠ 0 ↔
      rejected [.number (.finite 1 0), .undefined, .other .nan, .function 5]) :=
  ⟨by decide,
    (AssignArguments_rejects_iff sampleEnv (by decide)
      [.number (.finite 1 0), .undefined, .other .nan, .function 5] "" sampleRaw).1⟩

/-! ## C9: a rejected call does no work -/

theorem body_next_callback (E : Env) (i : Nat) (v : Value) (errorMessage : String)
    (ti ti1 : TranslationInfo) (h : AssignArguments.body E i v errorMessage ti = .next ti1) :
    ti1.callback = ti.callback := by
  rcases i with _ | _ | _ | j
  all_goals
    cases v <;>
      simp [AssignArguments.body, Value.IsFunction, Value.IsUndefined, Value.IsNull,
        Value.IsNumber, Value.NumberValue] at h <;>
      (try split_ifs at h) <;> (try simp at h) <;> (try subst h) <;> simp

theorem body_done_callback (E : Env) (i : Nat) (v : Value) (errorMessage : String)
    (ti : TranslationInfo) (out : Int × String × TranslationInfo)
    (h : AssignArguments.body E i v errorMessage ti = .done out) (hcode : out.1 ≠ 0) :
    out.2.2.callback = ti.callback := by
  rcases i with _ | _ | _ | j
  all_goals
    cases v <;>
      simp [AssignArguments.body, Value.IsFunction, Value.IsUndefined, Value.IsNull,
        Value.IsNumber, Value.NumberValue] at h <;>
      (try split_ifs at h) <;> (try simp at h) <;> (try subst h) <;> simp at hcode ⊢

/-- A callback is stored only on a path that returns 0. -/
theorem loop_rejected_callback (E : Env) (errorMessage : String) :
    ∀ (l : List Value) (i : Nat) (ti : TranslationInfo),
      (AssignArguments.loop E i l errorMessage ti).1 ≠ 0 →
      (AssignArguments.loop E i l errorMessage ti).2.2.callback = ti.callback := by
  intro l
  induction l with
  | nil => intro i ti _; simp [AssignArguments.loop]
  | cons v rest ih =>
    intro i ti
    rw [loop_cons]
    cases hb : AssignArguments.body E i v errorMessage ti with
    | done out => exact body_done_callback E i v errorMessage ti out hb
    | next ti1 =>
      intro h
      exact (ih _ _ h).trans (body_next_callback E i v errorMessage ti ti1 hb)

theorem AssignArguments_rejected_callback (E : Env) (args : List Value) (errorMessage : String)
    (ti : TranslationInfo) (h : (AssignArguments E args errorMessage ti).1 ≠ 0) :
    (AssignArguments E args errorMessage ti).2.2.callback = ti.callback := by
  unfold AssignArguments at h ⊢
  split_ifs at h ⊢
  · rfl
  · rfl
  · exact loop_rejected_callback E errorMessage args 0 ti h

theorem AssignArguments_code (E : Env) (args : List Value) (errorMessage : String)
    (ti : TranslationInfo) :
    (AssignArguments E args errorMessage ti).1 = 0 ∨
      (AssignArguments E args errorMessage ti).1 = E.ADDONARG := by
  unfold AssignArguments
  split_ifs
  · exact Or.inr rfl
  · exact Or.inr rfl
  · exact loop_code E errorMessage args 0 ti

/-- C9: provided ADDONARG is a non-zero code that fits the `uint8_t` of `Params`, whenever
`AssignArguments` returns a non-zero code the callback handle of the TranslationInfo is
still empty, and `Params` throws the validation error (the code with the message), calls
`pickparams` neither inline nor through the work queue (nothing is queued), invokes no
callback and returns the empty handle, whatever arguments the caller passed. -/
theorem Params_rejected_does_no_work (E : Env) (pick : PickFn) (raw : TranslationInfo)
    (config : Config) (args : List Value) (hA : E.ADDONARG % 256 ≠ 0)
    (hrej : (AssignArguments E args "" (TranslationInfo.construct E raw config)).1 ≠ 0) :
    (AssignArguments E args "" (TranslationInfo.construct E raw config)).2.2.callback = none ∧
    Params E pick raw config args
      = { thrown := some (.fromMessage (E.ADDONARG % 256)
            (AssignArguments E args "" (TranslationInfo.construct E raw config)).2.1)
          pickparamsCalls := []
          queued := none
          callbackCalls := []
          returned := .value none } := by
  have hcb := AssignArguments_rejected_callback E args "" _ hrej
  have hcode : (AssignArguments E args "" (TranslationInfo.construct E raw config)).1
      = E.ADDONARG := by
    rcases AssignArguments_code E args "" (TranslationInfo.construct E raw config) with h | h
    · exact absurd h hrej
    · exact h
  have hnone : (TranslationInfo.construct E raw config).callback = none := rfl
  rw [hnone] at hcb
  refine ⟨hcb, ?_⟩
  simp [Params, hcode, hA, Params.finish, hcb]

theorem Params_rejected_does_no_work_witness :
    sampleEnv.ADDONARG % 256 ≠ 0 ∧
    (AssignArguments sampleEnv [.number (.finite 0 0), .function 7] ""
      (TranslationInfo.construct sampleEnv sampleRaw sampleConfig)).1 ≠ 0 ∧
    (AssignArguments sampleEnv [.number (.finite 0 0), .function 7] ""
      (TranslationInfo.construct sampleEnv sampleRaw sampleConfig)).2.2.callback = none ∧
    Params sampleEnv samplePick sampleRaw sampleConfig [.number (.finite 0 0), .function 7]
      = { thrown := some (.fromMessage (sampleEnv.ADDONARG % 256)
            (AssignArguments sampleEnv [.number (.finite 0 0), .function 7] ""
              (TranslationInfo.construct sampleEnv sampleRaw sampleConfig)).2.1)
          pickparamsCalls := []
          queued := none
          callbackCalls := []
          returned := .value none } :=
  ⟨by decide, by decide,
    Params_rejected_does_no_work sampleEnv samplePick sampleRaw sampleConfig
      [.number (.finite 0 0), .function 7] (by decide) (by decide)⟩

/-! ## C7 and C8: what is delivered after the work -/

/-- C6 as stated fails: the call `params(1, undefined, 2)` is accepted and the
`maxmemfrac` handed to `pickparams` is the 2 of the caller, which is not `<= 1`. -/
theorem maxmemfrac_above_one_is_forwarded :
    (AssignArguments sampleEnv
        [.number (.finite 1 0), .undefined, .number (.finite 2 0)] ""
        (TranslationInfo.construct sampleEnv sampleRaw sampleConfig)).1 = 0 ∧
    Params.forwardedMaxmemfrac sampleEnv samplePick sampleRaw sampleConfig
        [.number (.finite 1 0), .undefined, .number (.finite 2 0)] = [.finite 2 0] ∧
    (Double.finite 2 0).leOne = false := by
  decide

/-- The pass of the loop body at index 1 over a number, undefined or null: it goes on and
leaves everything but `maxmem` alone. -/
theorem body_maxmem_optional (E : Env) (a : Value) (errorMessage : String)
    (ti : TranslationInfo) (ha : a = .undefined ∨ a = .null ∨ ∃ m, a = .number m) :
    ∃ mm, AssignArguments.body E 1 a errorMessage ti = .next { ti with maxmem := mm } := by
  rcases ha with rfl | rfl | ⟨m, rfl⟩
  · exact ⟨ti.maxmem, by simp [AssignArguments.body, Value.IsUndefined]⟩
  · exact ⟨ti.maxmem, by simp [AssignArguments.body, Value.IsUndefined, Value.IsNull]⟩
  · by_cases h : E.IntegerValue m > 0
    · exact ⟨E.SizeValue m, by
        simp [AssignArguments.body, Value.IsFunction, Value.IsUndefined, Value.IsNull,
          Value.IsNumber, Value.NumberValue, h]⟩
    · exact ⟨ti.maxmem, by
        simp [AssignArguments.body, Value.IsFunction, Value.IsUndefined, Value.IsNull,
          Value.IsNumber, Value.NumberValue, h]⟩

theorem AssignArguments_keeps_positive_maxmemfrac (E : Env) (maxtime maxmemfrac : Double)
    (a : Value) (rest : List Value) (errorMessage : String) (ti : TranslationInfo)
    (ht : maxtime.leZero = false) (ha : a = .undefined ∨ a = .null ∨ ∃ m, a = .number m)
    (hf : maxmemfrac.gtZero = true) :
    ∃ mm cb,
      AssignArguments E (.number maxtime :: a :: .number maxmemfrac :: rest) errorMessage ti
        = (0, errorMessage,
            { ti with
              maxtime := maxtime, maxmem := mm, maxmemfrac := maxmemfrac, callback := cb }) := by
  obtain ⟨mm, hmm⟩ := body_maxmem_optional E a errorMessage { ti with maxtime := maxtime } ha
  obtain ⟨cb, hcb⟩ := loop_from_three E errorMessage
    { ti with maxtime := maxtime, maxmem := mm, maxmemfrac := maxmemfrac } rest 3 (le_refl 3)
  refine ⟨mm, cb, ?_⟩
  rw [AssignArguments_cons_eq_loop E (.number maxtime) _ _ _ rfl, loop_cons,
    body_maxtime_number E maxtime errorMessage ti ht]
  simp only []
  rw [loop_cons, hmm]
  simp only []
  rw [loop_cons, body_maxmemfrac_number]
  simp only [hf, if_true]
  exact hcb

/-- What `Params` forwards once the arguments are accepted. -/
theorem forwardedMaxmemfrac_of_accepted (E : Env) (pick : PickFn) (raw : TranslationInfo)
    (config : Config) (args : List Value)
    (hacc : (AssignArguments E args "" (TranslationInfo.construct E raw config)).1 = 0) :
    Params.forwardedMaxmemfrac E pick raw config args
      = [(AssignArguments E args "" (TranslationInfo.construct E raw config)).2.2.maxmemfrac] := by
  by_cases hcb :
      (AssignArguments E args "" (TranslationInfo.construct E raw config)).2.2.callback.isNone
        = true
  · simp [Params.forwardedMaxmemfrac, Params, hacc, hcb]
  · simp [Params.forwardedMaxmemfrac, Params, hacc, hcb, runQueued]

/-- C6, amended: after a valid `maxtime` and a `maxmem` that is a number, undefined or
null, a `maxmemfrac` number `> 0` is accepted and is the `maxmemfrac` of the one
`pickparams` call that follows (inline or through the work queue), exactly as the caller
gave it, also when it is greater than 1; and for every accepted argument list the value
forwarded is the one `AssignArguments` left in the TranslationInfo. No clamp to (0,1] is
applied on the way. -/
theorem Params_forwards_maxmemfrac_as_given (E : Env) (pick : PickFn) (raw : TranslationInfo)
    (config : Config) (maxtime maxmemfrac : Double) (a : Value) (rest : List Value)
    (ht : maxtime.leZero = false) (ha : a = .undefined ∨ a = .null ∨ ∃ m, a = .number m)
    (hf : maxmemfrac.gtZero = true) :
    (AssignArguments E (.number maxtime :: a :: .number maxmemfrac :: rest) ""
      (TranslationInfo.construct E raw config)).1 = 0 ∧
    Params.forwardedMaxmemfrac E pick raw config
      (.number maxtime :: a :: .number maxmemfrac :: rest) = [maxmemfrac] ∧
    ∀ args : List Value,
      (AssignArguments E args "" (TranslationInfo.construct E raw config)).1 = 0 →
      Params.forwardedMaxmemfrac E pick raw config args
        = [(AssignArguments E args "" (TranslationInfo.construct E raw config)).2.2.maxmemfrac] := by
  obtain ⟨mm, cb, h⟩ := AssignArguments_keeps_positive_maxmemfrac E maxtime maxmemfrac a rest ""
    (TranslationInfo.construct E raw config) ht ha hf
  have hacc : (AssignArguments E (.number maxtime :: a :: .number maxmemfrac :: rest) ""
      (TranslationInfo.construct E raw config)).1 = 0 := by rw [h]
  refine ⟨hacc, ?_, fun args => forwardedMaxmemfrac_of_accepted E pick raw config args⟩
  rw [forwardedMaxmemfrac_of_accepted E pick raw config _ hacc, h]

theorem Params_forwards_maxmemfrac_as_given_witness :
    (Double.finite 1 0).leZero = false ∧
    (Value.undefined = .undefined ∨ Value.undefined = .null ∨
      ∃ m, Value.undefined = .number m) ∧
    (Double.finite 2 0).gtZero = true ∧
    Params.forwardedMaxmemfrac sampleEnv samplePick sampleRaw sampleConfig
      [.number (.finite 1 0), .undefined, .number (.finite 2 0), .function 5]
      = [.finite 2 0] :=
  ⟨by decide, Or.inl rfl, by decide,
    (Params_forwards_maxmemfrac_as_given sampleEnv samplePick sampleRaw sampleConfig
      (.finite 1 0) (.finite 2 0) .undefined [.function 5] (by decide) (Or.inl rfl)
      (by decide)).2.1⟩

end ScryptParams
